import Mathlib

/-!
Shallow embedding of the bias-variance estimation notebook
(src/bias-variance.ipynb) over exact rationals.

The notebook defines:
  - class HypothesisSpace with methods train(X, y) and assign(params);
  - class BiasVariance with __init__ (which runs _estimate_h_bar), bias2()
    and variance();
  - two concrete model families, UnRegularized10thModel and
    Regularized10thModel, which are textually identical except for the
    fitted sklearn regressor (LinearRegression vs Ridge(alpha=2)).

External collaborators are modelled as black-box structures, following the
systems spec which treats them as consumed interfaces:
  - RandLib models the process-wide numpy pseudo-random generator.  Its
    state type is explicit; np.random.seed(1) is embedded as replacing the
    current state by seedState 1.  The draw operations return the drawn
    array together with the successor state, and the only law assumed is
    the documented one: a draw of size n returns an array of length n.
  - Solver models the least-squares fitting step of sklearn
    (LinearRegression.fit or Ridge.fit).  Per the numpy and sklearn
    documentation that step is total on a validated, nonempty input:
    np.linalg.lstsq and the ridge solver return a coefficient vector (of
    length equal to the number of feature columns) and an intercept even
    for rank-deficient systems.  The input validation that sklearn runs
    before solving is part of the embedding of train below: the
    at-least-one-sample check of check_array (already raised by
    PolynomialFeatures.fit_transform, hence before any length comparison)
    and the sample-count consistency check of fit.

Python in-place mutation of numpy arrays is made explicit: assignE returns,
next to the bound model, the value of the caller array after the call.
Machine floats are embedded as exact rationals.
-/

/-- Error values raised by the Python code paths that the notebook can hit:
a sklearn ValueError from the at-least-one-sample validation (check_array,
raised by PolynomialFeatures.fit_transform on an array with 0 samples), a
sklearn ValueError for inconsistent sample counts in fit, a numpy
ValueError for a shape mismatch in the predict dot product, an IndexError
for indexing an empty parameter array, and a TypeError for applying an
augmented division to None (only reachable if the trial count were zero). -/
inductive PyErr where
  | zeroSamples
  | invalidInputShape
  | dimMismatch
  | indexError
  | noneTypeError
  deriving DecidableEq

/-- Black-box model of the numpy global pseudo-random generator with an
explicit state of type sigma.  seedState embeds np.random.seed, uniform
embeds np.random.uniform(lo, hi, n) and normal embeds
np.random.normal(scale, size = n).  The length laws record the documented
output shapes. -/
structure RandLib (σ : Type) where
  seedState : Nat → σ
  uniform : ℚ → ℚ → Nat → σ → List ℚ × σ
  normal : ℚ → Nat → σ → List ℚ × σ
  uniform_len : ∀ lo hi n s, (uniform lo hi n s).1.length = n
  normal_len : ∀ sc n s, (normal sc n s).1.length = n

/-- Black-box model of the sklearn fitting step (the body of
LinearRegression.fit or Ridge.fit after the input consistency check).
Given the number of feature columns, the design matrix rows and the label
vector, it returns the fitted coefficient array coef_ together with the
fitted intercept_.  It is total, and coef_ has one entry per feature
column: this is the documented behaviour of the underlying least-squares
and ridge solvers, which handle rank-deficient systems by returning a
minimum-norm solution instead of raising. -/
structure Solver where
  solve : Nat → List (List ℚ) → List ℚ → List ℚ × ℚ
  coef_len : ∀ n rows y, (solve n rows y).1.length = n

variable {σ : Type}

/-- Degree-10 polynomial basis expansion of a single input value: the row
that PolynomialFeatures(10).fit_transform produces for a one-column input,
namely the powers x^0, x^1, ..., x^10. -/
def polyBasis10 (x : ℚ) : List ℚ :=
  (List.range 11).map (fun k => x ^ k)

/-- Dot product of two coefficient lists, as computed by the numpy matrix
product inside model.predict. -/
def dot (a b : List ℚ) : ℚ :=
  (List.zipWith (· * ·) a b).sum

/-- Arithmetic mean of a list, as computed by np.mean: the sum divided by
the length.  All uses in the notebook are on arrays of fixed positive
length (200 or 1000). -/
def npMean (l : List ℚ) : ℚ :=
  l.sum / (l.length : ℚ)

/-- Pointwise predictions of a linear model with the given coefficient
array and intercept over the degree-10 polynomial basis: the value of
model.predict(transform.fit_transform(np.reshape(x, (-1, 1)))) on the
non-error path.  The input is reshaped to one column, expanded to the
11-column basis, and the linear map is applied row by row. -/
def predVals (coef : List ℚ) (intercept : ℚ) (x : List ℚ) : List ℚ :=
  x.map (fun t => dot (polyBasis10 t) coef + intercept)

/-- Prediction call of the lambda returned by assign.  The numpy dot
product inside model.predict raises a ValueError whenever the coefficient
array length differs from the 11 basis columns produced by
PolynomialFeatures(10); otherwise it returns one prediction per input
point. -/
def predictPoly (coef : List ℚ) (intercept : ℚ) (x : List ℚ) : Except PyErr (List ℚ) :=
  if coef.length = 11 then .ok (predVals coef intercept x) else .error .dimMismatch

/-- Data of the callable returned by assign: the coefficient array stored
in model.coef_ and the intercept stored in model.intercept_. -/
structure BoundModel where
  coef : List ℚ
  intercept : ℚ
  deriving DecidableEq

/-- Invocation of the callable returned by assign on an input array. -/
def applyModel (h : BoundModel) (x : List ℚ) : Except PyErr (List ℚ) :=
  predictPoly h.coef h.intercept x

/-- Embedding of UnRegularized10thModel.train and Regularized10thModel.train,
which differ only in the solver black box.  The input X is reshaped to one
column and expanded with PolynomialFeatures(10) into 11 columns; the
check_array validation inside PolynomialFeatures.fit_transform raises a
ValueError when X has 0 samples (this check fires before fit ever sees y);
sklearn fit then checks that the design matrix and y have consistent
sample counts (raising a ValueError otherwise) and solves; finally the
slot 0 of coef_ (the column of the constant basis feature) is overwritten
with the fitted intercept, and the resulting array is returned. -/
def train (S : Solver) (X y : List ℚ) : Except PyErr (List ℚ) :=
  let polyX := X.map polyBasis10
  if X.length = 0 then
    .error .zeroSamples
  else if X.length = y.length then
    let r := S.solve 11 polyX y
    .ok (r.1.set 0 r.2)
  else
    .error .invalidInputShape

/-- Value returned by train on its non-error path (sample counts agree). -/
def trainCoef (S : Solver) (X y : List ℚ) : List ℚ :=
  let r := S.solve 11 (X.map polyBasis10) y
  r.1.set 0 r.2

/-- Embedding of UnRegularized10thModel.assign and
Regularized10thModel.assign (textually identical in the source).  Reading
params[0] raises an IndexError on an empty array.  Otherwise the intercept
is read from slot 0, and slot 0 of params itself is overwritten with 0.0:
coef is a reference to params, not a copy, so the caller array is mutated
in place.  The first component of the result is the value of the caller
array after the call; the second is the bound model, whose coef_ is that
same mutated array and whose intercept_ is the value read from slot 0
before zeroing.  No length validation of any kind is performed here. -/
def assignE (params : List ℚ) : Except PyErr (List ℚ × BoundModel) :=
  match params with
  | [] => .error .indexError
  | p0 :: rest => .ok (0 :: rest, ⟨0 :: rest, p0⟩)

/-- Evaluation grid stored in self.sample_x: np.arange(-1, 1, 0.01), the
200 evenly spaced points -1 + k * 0.01 for k = 0, ..., 199. -/
def sampleGrid : List ℚ :=
  (List.range 200).map (fun k : ℕ => -1 + (k : ℚ) * 0.01)

/-- State of a BiasVariance object after __init__: the stored evaluation
grid self.sample_x and the cached mean hypothesis self.h_bar.  The target
function and the hypothesis space are passed explicitly to the operations
below. -/
structure BVEstimator where
  sampleX : List ℚ
  hbar : BoundModel
  deriving DecidableEq

/-- Generation of one simulated dataset, the shared body of both
1000-trial loops: X = np.random.uniform(-1, 1, 200), noise =
np.random.normal(scale = 2, size = 200), y = target(X) + noise, where the
target is applied elementwise.  Returns the pair (X, y) together with the
generator state after the two draws. -/
def genDataset (R : RandLib σ) (f : ℚ → ℚ) (s : σ) : (List ℚ × List ℚ) × σ :=
  let u := R.uniform (-1) 1 200 s
  let nz := R.normal 2 200 u.2
  ((u.1, List.zipWith (· + ·) (u.1.map f) nz.1), nz.2)

/-- Trial loop of BiasVariance._estimate_h_bar.  The accumulator mirrors
datasets_mean_coef: None before the first trial, afterwards the running
elementwise numpy sum of the fitted coefficient vectors.  Each trial
generates a dataset, fits it, and folds the fitted vector into the
accumulator; an exception from train aborts the loop and propagates.  The
generator state is threaded through and returned alongside. -/
def trialsAccum (R : RandLib σ) (S : Solver) (f : ℚ → ℚ) :
    Nat → Option (List ℚ) → σ → Except PyErr (Option (List ℚ)) × σ
  | 0, acc, s => (.ok acc, s)
  | n + 1, acc, s =>
    let ds := genDataset R f s
    match train S ds.1.1 ds.1.2 with
    | .error e => (.error e, ds.2)
    | .ok coef =>
      match acc with
      | none => trialsAccum R S f n (some coef) ds.2
      | some mcur => trialsAccum R S f n (some (List.zipWith (· + ·) mcur coef)) ds.2

/-- Embedding of BiasVariance.__init__, which synchronously runs
_estimate_h_bar: np.random.seed(1) discards the incoming generator state
gIn, 1000 trials are accumulated, the accumulated vector is divided
elementwise by 1000.0 (an augmented division on None would raise a
TypeError, unreachable with 1000 trials), and the mean vector is bound via
assign; the resulting callable is cached as self.h_bar next to
self.sample_x.  The second component is the generator state left behind. -/
def mkBV (R : RandLib σ) (S : Solver) (f : ℚ → ℚ) (gIn : σ) :
    Except PyErr BVEstimator × σ :=
  let _ := gIn
  let r := trialsAccum R S f 1000 none (R.seedState 1)
  match r with
  | (.ok (some acc), s) =>
    let m := acc.map (· / 1000)
    match assignE m with
    | .ok (_, hb) => (.ok ⟨sampleGrid, hb⟩, s)
    | .error e => (.error e, s)
  | (.ok none, s) => (.error .noneTypeError, s)
  | (.error e, s) => (.error e, s)

/-- Embedding of BiasVariance.bias2: evaluate the cached mean hypothesis
on the stored grid self.sample_x, evaluate the target elementwise on the
same grid, and return the numpy mean of the squared elementwise
differences.  No generator argument appears: the method draws no random
numbers. -/
def bias2 (f : ℚ → ℚ) (est : BVEstimator) : Except PyErr ℚ :=
  match applyModel est.hbar est.sampleX with
  | .ok p => .ok (npMean (List.zipWith (fun a b => (a - b) ^ 2) p (est.sampleX.map f)))
  | .error e => .error e

/-- Trial loop of BiasVariance.variance: each trial regenerates a dataset
with the same generator calls as the mean-hypothesis loop, fits it, binds
the fitted vector to a trial callable, evaluates both the trial callable
and the cached mean hypothesis on the features X of this very trial, and
appends the numpy mean of the squared differences to the list of
per-trial variances.  Exceptions abort and propagate. -/
def varLoop (R : RandLib σ) (S : Solver) (f : ℚ → ℚ) (hbar : BoundModel) :
    Nat → List ℚ → σ → Except PyErr (List ℚ) × σ
  | 0, acc, s => (.ok acc, s)
  | n + 1, acc, s =>
    let ds := genDataset R f s
    match train S ds.1.1 ds.1.2 with
    | .error e => (.error e, ds.2)
    | .ok coef =>
      match assignE coef with
      | .error e => (.error e, ds.2)
      | .ok (_, inst) =>
        match applyModel inst ds.1.1, applyModel hbar ds.1.1 with
        | .ok pX, .ok hX =>
          varLoop R S f hbar n
            (acc ++ [npMean (List.zipWith (fun a b => (a - b) ^ 2) pX hX)]) ds.2
        | .error e, _ => (.error e, ds.2)
        | _, .error e => (.error e, ds.2)

/-- Embedding of BiasVariance.variance: np.random.seed(1) discards the
incoming generator state gIn, the 1000-trial loop collects the per-trial
variance estimates, and their numpy mean is returned together with the
generator state left behind. -/
def varianceBV (R : RandLib σ) (S : Solver) (f : ℚ → ℚ) (est : BVEstimator) (gIn : σ) :
    Except PyErr ℚ × σ :=
  let _ := gIn
  match varLoop R S f est.hbar 1000 [] (R.seedState 1) with
  | (.ok vars, s) => (.ok (npMean vars), s)
  | (.error e, s) => (.error e, s)

/-- Generator state at the start of trial i of a seeded 1000-trial pass:
state 0 is the state right after np.random.seed(1), and each trial
advances the state by the two draws of genDataset. -/
def passState (R : RandLib σ) (f : ℚ → ℚ) : Nat → σ
  | 0 => R.seedState 1
  | n + 1 => (genDataset R f (passState R f n)).2

/-- Dataset (X, y) generated at trial i of a seeded pass. -/
def datasetAt (R : RandLib σ) (f : ℚ → ℚ) (i : Nat) : List ℚ × List ℚ :=
  (genDataset R f (passState R f i)).1

/-- Coefficient vector fitted at trial i of a seeded pass. -/
def coefAt (R : RandLib σ) (S : Solver) (f : ℚ → ℚ) (i : Nat) : List ℚ :=
  trainCoef S (datasetAt R f i).1 (datasetAt R f i).2

/-- Elementwise running sum of the fitted coefficient vectors of trials
k, k + 1, ..., k + n - 1 folded onto an initial accumulator, mirroring the
accumulation order of the source loop. -/
def accumFrom (R : RandLib σ) (S : Solver) (f : ℚ → ℚ) :
    Nat → List ℚ → Nat → List ℚ
  | 0, acc, _ => acc
  | n + 1, acc, k => accumFrom R S f n (List.zipWith (· + ·) acc (coefAt R S f k)) (k + 1)

/-- Per-trial variance estimate of trial i: the numpy mean of the squared
differences between the predictions of the trial model (the fitted vector
with slot 0 zeroed as coefficient array and its original slot 0 as
intercept, exactly what assign builds) and the predictions of the mean
hypothesis, both evaluated on the features of trial i itself. -/
def varAt (R : RandLib σ) (S : Solver) (f : ℚ → ℚ) (hbar : BoundModel) (i : Nat) : ℚ :=
  npMean (List.zipWith (fun a b => (a - b) ^ 2)
    (predVals ((coefAt R S f i).set 0 0) ((coefAt R S f i).getD 0 0) (datasetAt R f i).1)
    (predVals hbar.coef hbar.intercept (datasetAt R f i).1))

/-- Generator state reached after running the first i trials of the
mean-hypothesis loop, read off from the loop itself. -/
def hbarStateAt (R : RandLib σ) (S : Solver) (f : ℚ → ℚ) (i : Nat) : σ :=
  (trialsAccum R S f i none (R.seedState 1)).2

/-- Generator state reached after running the first i trials of the
variance loop, read off from the loop itself. -/
def varStateAt (R : RandLib σ) (S : Solver) (f : ℚ → ℚ) (hbar : BoundModel) (i : Nat) : σ :=
  (varLoop R S f hbar i [] (R.seedState 1)).2

/-- Concrete generator instance used to instantiate proved theorems on
closed inputs: the state is a counter, and every draw returns an array of
zeros of the requested size. -/
def demoRand : RandLib Nat where
  seedState n := n
  uniform _ _ n s := (List.replicate n 0, s + 1)
  normal _ n s := (List.replicate n 0, s + 1)
  uniform_len := by intro lo hi n s; simp
  normal_len := by intro sc n s; simp

/-- Concrete solver instance used to instantiate proved theorems on
closed inputs: it returns the zero coefficient vector of the requested
width and a zero intercept. -/
def demoSolver : Solver where
  solve n _ _ := (List.replicate n 0, 0)
  coef_len := by intro n rows y; simp

/-- Concrete estimator state used to instantiate proved theorems on
closed inputs: the standard grid and an all-zero bound model of the
correct width 11. -/
def demoEst : BVEstimator :=
  ⟨sampleGrid, ⟨List.replicate 11 0, 0⟩⟩

theorem list_range_map_sum (F : Nat → ℚ) (n : Nat) :
    ((List.range n).map F).sum = ∑ i ∈ Finset.range n, F i := by
  induction n with
  | zero => simp
  | succ n ih =>
    rw [List.range_succ, List.map_append, List.sum_append, Finset.sum_range_succ, ih]
    simp

theorem zipWith_map_same (g : ℚ → ℚ → ℚ) (a b : ℚ → ℚ) (l : List ℚ) :
    List.zipWith g (l.map a) (l.map b) = l.map (fun t => g (a t) (b t)) := by
  induction l with
  | nil => rfl
  | cons x xs ih => simp [ih]

theorem getD_map_of_lt {α β : Type} (g : α → β) (l : List α) (j : Nat) (dα : α) (dβ : β)
    (h : j < l.length) : (l.map g).getD j dβ = g (l.getD j dα) := by
  rw [List.getD_eq_getElem _ _ (by simpa using h), List.getD_eq_getElem _ _ h,
    List.getElem_map]

theorem zipWith_add_getD (a b : List ℚ) (j : Nat) (ha : j < a.length) (hb : j < b.length) :
    (List.zipWith (· + ·) a b).getD j 0 = a.getD j 0 + b.getD j 0 := by
  have h : j < (List.zipWith (· + ·) a b).length := by
    rw [List.length_zipWith]
    omega
  rw [List.getD_eq_getElem _ _ h, List.getD_eq_getElem _ _ ha, List.getD_eq_getElem _ _ hb,
    List.getElem_zipWith]

theorem npMean_nonneg (l : List ℚ) (h : ∀ x ∈ l, 0 ≤ x) : 0 ≤ npMean l := by
  unfold npMean
  exact div_nonneg (List.sum_nonneg h) (by positivity)

theorem sum_eq_zero_iff_of_nonneg (l : List ℚ) (h : ∀ x ∈ l, 0 ≤ x) :
    l.sum = 0 ↔ ∀ x ∈ l, x = 0 := by
  induction l with
  | nil => simp
  | cons x xs ih =>
    have hx : 0 ≤ x := h x (by simp)
    have hxs : ∀ y ∈ xs, 0 ≤ y := fun y hy => h y (by simp [hy])
    have hsum : 0 ≤ xs.sum := List.sum_nonneg hxs
    simp only [List.sum_cons, List.mem_cons]
    constructor
    · intro h0
      have hx0 : x = 0 := by linarith
      have hxs0 : xs.sum = 0 := by linarith
      intro y hy
      rcases hy with hy | hy
      · exact hy ▸ hx0
      · exact ((ih hxs).1 hxs0) y hy
    · intro hall
      have hx0 : x = 0 := hall x (Or.inl rfl)
      have hxs0 : xs.sum = 0 := (ih hxs).2 (fun y hy => hall y (Or.inr hy))
      rw [hx0, hxs0, add_zero]

theorem mem_zipWith_sq_nonneg (p : List ℚ) :
    ∀ (q : List ℚ) (x : ℚ), x ∈ List.zipWith (fun a b => (a - b) ^ 2) p q → 0 ≤ x := by
  induction p with
  | nil => intro q x hx; simp at hx
  | cons a as ih =>
    intro q x hx
    cases q with
    | nil => simp at hx
    | cons b bs =>
      simp only [List.zipWith_cons_cons, List.mem_cons] at hx
      rcases hx with h | h
      · rw [h]; positivity
      · exact ih bs x h

theorem datasetAt_fst_len (R : RandLib σ) (f : ℚ → ℚ) (i : Nat) :
    ((datasetAt R f i).1).length = 200 := by
  simp [datasetAt, genDataset, R.uniform_len]

theorem datasetAt_snd_len (R : RandLib σ) (f : ℚ → ℚ) (i : Nat) :
    ((datasetAt R f i).2).length = 200 := by
  simp [datasetAt, genDataset, List.length_zipWith, R.uniform_len, R.normal_len]

theorem train_eq_ok (S : Solver) (X y : List ℚ) (h : X.length = y.length)
    (h0 : X.length ≠ 0) : train S X y = .ok (trainCoef S X y) := by
  simp only [train, if_neg h0, if_pos h]
  rfl

theorem trainCoef_len (S : Solver) (X y : List ℚ) : (trainCoef S X y).length = 11 := by
  simp [trainCoef, List.length_set, S.coef_len]

theorem coefAt_len (R : RandLib σ) (S : Solver) (f : ℚ → ℚ) (i : Nat) :
    (coefAt R S f i).length = 11 :=
  trainCoef_len S _ _

theorem coefAt_ne_nil (R : RandLib σ) (S : Solver) (f : ℚ → ℚ) (i : Nat) :
    coefAt R S f i ≠ [] := by
  intro h
  have := coefAt_len R S f i
  rw [h] at this
  simp at this

theorem assignE_eq (p : List ℚ) (h : p ≠ []) :
    assignE p = .ok (p.set 0 0, ⟨p.set 0 0, p.getD 0 0⟩) := by
  cases p with
  | nil => exact absurd rfl h
  | cons a l => rfl

theorem accumFrom_len (R : RandLib σ) (S : Solver) (f : ℚ → ℚ) :
    ∀ (n : Nat) (acc : List ℚ) (k : Nat), acc.length = 11 →
      (accumFrom R S f n acc k).length = 11 := by
  intro n
  induction n with
  | zero => intro acc k h; simpa [accumFrom] using h
  | succ n ih =>
    intro acc k h
    rw [accumFrom]
    exact ih _ _ (by simp [List.length_zipWith, h, coefAt_len])

theorem accumFrom_getD (R : RandLib σ) (S : Solver) (f : ℚ → ℚ) :
    ∀ (n : Nat) (acc : List ℚ) (k j : Nat), acc.length = 11 → j < 11 →
      (accumFrom R S f n acc k).getD j 0
        = acc.getD j 0 + ∑ i ∈ Finset.range n, (coefAt R S f (k + i)).getD j 0 := by
  intro n
  induction n with
  | zero => intro acc k j h hj; simp [accumFrom]
  | succ n ih =>
    intro acc k j h hj
    rw [accumFrom]
    rw [ih _ _ _ (by simp [List.length_zipWith, h, coefAt_len]) hj]
    rw [zipWith_add_getD _ _ _ (by omega) (by rw [coefAt_len]; omega)]
    rw [Finset.sum_range_succ' (fun i => (coefAt R S f (k + i)).getD j 0) n]
    have hsh : ∀ i, (coefAt R S f (k + 1 + i)).getD j 0
        = (coefAt R S f (k + (i + 1))).getD j 0 := by
      intro i
      rw [show k + 1 + i = k + (i + 1) by omega]
    rw [Finset.sum_congr rfl (fun i _ => hsh i)]
    rw [add_assoc, add_comm ((coefAt R S f k).getD j 0)]
    simp

theorem genDataset_len (R : RandLib σ) (f : ℚ → ℚ) (s : σ) :
    ((genDataset R f s).1.1).length = ((genDataset R f s).1.2).length := by
  simp [genDataset, List.length_zipWith, R.uniform_len, R.normal_len]

theorem genDataset_ne_zero (R : RandLib σ) (f : ℚ → ℚ) (s : σ) :
    ((genDataset R f s).1.1).length ≠ 0 := by
  simp [genDataset, R.uniform_len]

theorem trialsAccum_succ_none (R : RandLib σ) (S : Solver) (f : ℚ → ℚ) (n : Nat) (s : σ) :
    trialsAccum R S f (n + 1) none s
      = trialsAccum R S f n
          (some (trainCoef S (genDataset R f s).1.1 (genDataset R f s).1.2))
          (genDataset R f s).2 := by
  simp only [trialsAccum]
  rw [train_eq_ok S _ _ (genDataset_len R f s) (genDataset_ne_zero R f s)]

theorem trialsAccum_succ_some (R : RandLib σ) (S : Solver) (f : ℚ → ℚ) (n : Nat)
    (m : List ℚ) (s : σ) :
    trialsAccum R S f (n + 1) (some m) s
      = trialsAccum R S f n
          (some (List.zipWith (· + ·) m
            (trainCoef S (genDataset R f s).1.1 (genDataset R f s).1.2)))
          (genDataset R f s).2 := by
  simp only [trialsAccum]
  rw [train_eq_ok S _ _ (genDataset_len R f s) (genDataset_ne_zero R f s)]

theorem trialsAccum_some_eq (R : RandLib σ) (S : Solver) (f : ℚ → ℚ) :
    ∀ (n k : Nat) (acc : List ℚ),
      trialsAccum R S f n (some acc) (passState R f k)
        = (.ok (some (accumFrom R S f n acc k)), passState R f (k + n)) := by
  intro n
  induction n with
  | zero => intro k acc; simp [trialsAccum, accumFrom]
  | succ n ih =>
    intro k acc
    rw [trialsAccum_succ_some R S f n acc (passState R f k)]
    have hc : trainCoef S (genDataset R f (passState R f k)).1.1
        (genDataset R f (passState R f k)).1.2 = coefAt R S f k := rfl
    have hs : (genDataset R f (passState R f k)).2 = passState R f (k + 1) := rfl
    rw [hc, hs, ih (k + 1) (List.zipWith (· + ·) acc (coefAt R S f k))]
    rw [accumFrom, show k + 1 + n = k + (n + 1) by omega]

theorem trialsAccum_run (R : RandLib σ) (S : Solver) (f : ℚ → ℚ) (n : Nat) :
    trialsAccum R S f (n + 1) none (R.seedState 1)
      = (.ok (some (accumFrom R S f n (coefAt R S f 0) 1)), passState R f (n + 1)) := by
  have h0 : R.seedState 1 = passState R f 0 := rfl
  rw [h0, trialsAccum_succ_none]
  have hc : trainCoef S (genDataset R f (passState R f 0)).1.1
      (genDataset R f (passState R f 0)).1.2 = coefAt R S f 0 := rfl
  have hs : (genDataset R f (passState R f 0)).2 = passState R f 1 := rfl
  rw [hc, hs, trialsAccum_some_eq R S f n 1 (coefAt R S f 0)]
  rw [show 1 + n = n + 1 by omega]

theorem varLoop_succ (R : RandLib σ) (S : Solver) (f : ℚ → ℚ) (hbar : BoundModel)
    (h11 : hbar.coef.length = 11) (n : Nat) (acc : List ℚ) (s : σ) :
    varLoop R S f hbar (n + 1) acc s
      = varLoop R S f hbar n
          (acc ++ [npMean (List.zipWith (fun a b => (a - b) ^ 2)
            (predVals ((trainCoef S (genDataset R f s).1.1 (genDataset R f s).1.2).set 0 0)
              ((trainCoef S (genDataset R f s).1.1 (genDataset R f s).1.2).getD 0 0)
              (genDataset R f s).1.1)
            (predVals hbar.coef hbar.intercept (genDataset R f s).1.1))])
          (genDataset R f s).2 := by
  have hne : trainCoef S (genDataset R f s).1.1 (genDataset R f s).1.2 ≠ [] := by
    intro h
    have hlen := trainCoef_len S (genDataset R f s).1.1 (genDataset R f s).1.2
    rw [h] at hlen
    simp at hlen
  simp only [varLoop, train_eq_ok S _ _ (genDataset_len R f s) (genDataset_ne_zero R f s),
    assignE_eq _ hne,
    applyModel, predictPoly, List.length_set, trainCoef_len, h11, if_true, reduceIte]

theorem range_map_shift (g : Nat → ℚ) (n k : Nat) :
    g k :: (List.range n).map (fun i => g (k + 1 + i))
      = (List.range (n + 1)).map (fun i => g (k + i)) := by
  rw [List.range_succ_eq_map]
  simp only [List.map_cons, Nat.add_zero, List.map_map]
  refine congrArg₂ List.cons rfl ?_
  exact List.map_congr_left (fun i _ => by
    simp only [Function.comp_apply]
    rw [show k + 1 + i = k + Nat.succ i by omega])

theorem varLoop_eq (R : RandLib σ) (S : Solver) (f : ℚ → ℚ) (hbar : BoundModel)
    (h11 : hbar.coef.length = 11) :
    ∀ (n k : Nat) (acc : List ℚ),
      varLoop R S f hbar n acc (passState R f k)
        = (.ok (acc ++ (List.range n).map (fun i => varAt R S f hbar (k + i))),
           passState R f (k + n)) := by
  intro n
  induction n with
  | zero => intro k acc; simp [varLoop]
  | succ n ih =>
    intro k acc
    rw [varLoop_succ R S f hbar h11 n acc (passState R f k)]
    have hval : npMean (List.zipWith (fun a b => (a - b) ^ 2)
        (predVals ((trainCoef S (genDataset R f (passState R f k)).1.1
            (genDataset R f (passState R f k)).1.2).set 0 0)
          ((trainCoef S (genDataset R f (passState R f k)).1.1
            (genDataset R f (passState R f k)).1.2).getD 0 0)
          (genDataset R f (passState R f k)).1.1)
        (predVals hbar.coef hbar.intercept (genDataset R f (passState R f k)).1.1))
        = varAt R S f hbar k := rfl
    have hs : (genDataset R f (passState R f k)).2 = passState R f (k + 1) := rfl
    rw [hval, hs, ih (k + 1) (acc ++ [varAt R S f hbar k])]
    rw [List.append_assoc, List.singleton_append]
    rw [range_map_shift (fun i => varAt R S f hbar i) n k]
    rw [show k + 1 + n = k + (n + 1) by omega]

theorem hbarStateAt_eq (R : RandLib σ) (S : Solver) (f : ℚ → ℚ) (i : Nat) :
    hbarStateAt R S f i = passState R f i := by
  cases i with
  | zero => rfl
  | succ n =>
    unfold hbarStateAt
    rw [trialsAccum_run R S f n]

theorem varStateAt_eq (R : RandLib σ) (S : Solver) (f : ℚ → ℚ) (hbar : BoundModel)
    (h11 : hbar.coef.length = 11) (i : Nat) :
    varStateAt R S f hbar i = passState R f i := by
  cases i with
  | zero => rfl
  | succ n =>
    unfold varStateAt
    have h0 : R.seedState 1 = passState R f 0 := rfl
    rw [h0, varLoop_eq R S f hbar h11 (n + 1) 0 []]
    simp

/-- C1: the mean-hypothesis estimation performed at estimator construction
reseeds the generator to seed 1 and runs exactly 1000 trials; each trial
draws 200 feature values with uniform(-1, 1, 200), draws 200 noise values
with normal(scale = 2, size = 200), sets labels to target(features) plus
noise elementwise, and fits a parameter vector; the cached mean hypothesis
is obtained by binding (via assign) the elementwise arithmetic mean of the
1000 fitted parameter vectors, that is their elementwise sum divided by
1000.  The final generator state witnesses that exactly 1000 trials were
consumed. -/
theorem c1_mean_hypothesis_construction {σ : Type} (R : RandLib σ) (S : Solver)
    (f : ℚ → ℚ) (g : σ) :
    ∃ m : List ℚ,
      (mkBV R S f g).1 = .ok ⟨sampleGrid, ⟨m.set 0 0, m.getD 0 0⟩⟩
      ∧ (mkBV R S f g).2 = passState R f 1000
      ∧ m.length = 11
      ∧ (∀ j, j < 11 →
          m.getD j 0 = (∑ i ∈ Finset.range 1000, (coefAt R S f i).getD j 0) / 1000)
      ∧ (∀ i, datasetAt R f i
          = ((R.uniform (-1) 1 200 (passState R f i)).1,
             List.zipWith (· + ·)
               ((R.uniform (-1) 1 200 (passState R f i)).1.map f)
               (R.normal 2 200 (R.uniform (-1) 1 200 (passState R f i)).2).1))
      ∧ (∀ i, coefAt R S f i = trainCoef S (datasetAt R f i).1 (datasetAt R f i).2) := by
  have hrun := trialsAccum_run R S f 999
  norm_num at hrun
  have hAlen : (accumFrom R S f 999 (coefAt R S f 0) 1).length = 11 :=
    accumFrom_len R S f 999 _ 1 (coefAt_len R S f 0)
  have hmne : (accumFrom R S f 999 (coefAt R S f 0) 1).map (· / 1000) ≠ [] := by
    intro h
    have hl : ((accumFrom R S f 999 (coefAt R S f 0) 1).map (· / 1000)).length = 11 := by
      simpa using hAlen
    rw [h] at hl
    simp at hl
  refine ⟨(accumFrom R S f 999 (coefAt R S f 0) 1).map (· / 1000), ?_, ?_, ?_, ?_,
    fun i => rfl, fun i => rfl⟩
  · simp only [mkBV, hrun, assignE_eq _ hmne]
  · simp only [mkBV, hrun, assignE_eq _ hmne]
  · simpa using hAlen
  · intro j hj
    rw [getD_map_of_lt _ _ _ 0 0 (by rw [hAlen]; omega)]
    have hsum : (accumFrom R S f 999 (coefAt R S f 0) 1).getD j 0
        = ∑ i ∈ Finset.range 1000, (coefAt R S f i).getD j 0 := by
      rw [accumFrom_getD R S f 999 _ 1 j (coefAt_len R S f 0) hj]
      rw [show (1000 : Nat) = 999 + 1 by norm_num]
      rw [Finset.sum_range_succ' (fun i => (coefAt R S f i).getD j 0) 999]
      have hsh : ∀ i, (coefAt R S f (1 + i)).getD j 0 = (coefAt R S f (i + 1)).getD j 0 :=
        fun i => by rw [Nat.add_comm]
      rw [Finset.sum_congr rfl (fun i _ => hsh i), add_comm]
    rw [hsum]

/-- C2: bias2 returns the arithmetic mean, over the 200 points of the
sample grid (the points -1 + k * 0.01 for k = 0, ..., 199), of the squared
elementwise differences between the mean-hypothesis predictions and the
target values on that grid; the computation takes no generator and uses no
randomness. -/
theorem c2_bias2_formula (f : ℚ → ℚ) (est : BVEstimator)
    (h11 : est.hbar.coef.length = 11) (hgrid : est.sampleX = sampleGrid) :
    bias2 f est
      = .ok ((∑ k ∈ Finset.range 200,
          (dot (polyBasis10 (-1 + (k : ℚ) * 0.01)) est.hbar.coef + est.hbar.intercept
            - f (-1 + (k : ℚ) * 0.01)) ^ 2) / 200)
    ∧ sampleGrid.length = 200
    ∧ (∀ k, k < 200 → sampleGrid.getD k 0 = -1 + (k : ℚ) * 0.01) := by
  refine ⟨?_, by unfold sampleGrid; rw [List.length_map, List.length_range], ?_⟩
  · simp only [bias2, applyModel, predictPoly, h11, reduceIte, hgrid]
    unfold predVals
    rw [zipWith_map_same]
    unfold npMean sampleGrid
    rw [List.map_map, list_range_map_sum, List.length_map, List.length_range]
    simp [Function.comp]
  · intro k hk
    unfold sampleGrid
    rw [getD_map_of_lt _ _ _ 0 0 (by rw [List.length_range]; exact hk)]
    rw [List.getD_eq_getElem _ _ (by rw [List.length_range]; exact hk), List.getElem_range]

/-- C3: variance reseeds the generator to the same seed 1 used for
mean-hypothesis estimation and runs 1000 trials over the same seeded state
sequence passState (so each trial regenerates the same dataset as the
mean-hypothesis pass); each per-trial value is the mean squared difference
between the trial predictor (built by assign from the fitted vector) and
the mean hypothesis, both evaluated on the 200 feature points of that very
trial, and the returned value is the arithmetic mean of the 1000 per-trial
values. -/
theorem c3_variance_formula {σ : Type} (R : RandLib σ) (S : Solver) (f : ℚ → ℚ)
    (est : BVEstimator) (g : σ) (h11 : est.hbar.coef.length = 11) :
    (varianceBV R S f est g).1
      = .ok ((∑ i ∈ Finset.range 1000, varAt R S f est.hbar i) / 1000)
    ∧ (varianceBV R S f est g).2 = passState R f 1000
    ∧ (∀ i, varAt R S f est.hbar i
        = npMean (List.zipWith (fun a b => (a - b) ^ 2)
            (predVals ((coefAt R S f i).set 0 0) ((coefAt R S f i).getD 0 0)
              (datasetAt R f i).1)
            (predVals est.hbar.coef est.hbar.intercept (datasetAt R f i).1)))
    ∧ (∀ i, ((datasetAt R f i).1).length = 200) := by
  have h0 : passState R f 0 = R.seedState 1 := rfl
  have hrun := varLoop_eq R S f est.hbar h11 1000 0 []
  rw [h0] at hrun
  simp only [List.nil_append, Nat.zero_add, zero_add] at hrun
  refine ⟨?_, ?_, fun i => rfl, fun i => datasetAt_fst_len R f i⟩
  · simp only [varianceBV, hrun]
    unfold npMean
    rw [list_range_map_sum, List.length_map, List.length_range]
    norm_num
  · simp only [varianceBV, hrun]

/-- C4: for every solver (model family) and every target, bias2 and
variance return non-negative values, and bias2 is exactly zero if and only
if the mean hypothesis agrees with the target at every point of the sample
grid. -/
theorem c4_nonnegativity {σ : Type} (R : RandLib σ) (S : Solver) (f : ℚ → ℚ)
    (est : BVEstimator) (g : σ) (h11 : est.hbar.coef.length = 11)
    (hgrid : est.sampleX = sampleGrid) :
    (∃ b, bias2 f est = .ok b ∧ 0 ≤ b
      ∧ (b = 0 ↔ ∀ x ∈ sampleGrid,
          dot (polyBasis10 x) est.hbar.coef + est.hbar.intercept = f x))
    ∧ (∃ v, (varianceBV R S f est g).1 = .ok v ∧ 0 ≤ v) := by
  constructor
  · refine ⟨npMean (List.zipWith (fun a b => (a - b) ^ 2)
      (predVals est.hbar.coef est.hbar.intercept sampleGrid) (sampleGrid.map f)),
      ?_, ?_, ?_⟩
    · simp only [bias2, applyModel, predictPoly, h11, reduceIte, hgrid]
    · exact npMean_nonneg _ (fun x hx => mem_zipWith_sq_nonneg _ _ x hx)
    · have hl : List.zipWith (fun a b => (a - b) ^ 2)
          (predVals est.hbar.coef est.hbar.intercept sampleGrid) (sampleGrid.map f)
          = sampleGrid.map (fun t =>
              (dot (polyBasis10 t) est.hbar.coef + est.hbar.intercept - f t) ^ 2) := by
        unfold predVals
        rw [zipWith_map_same]
      have hnn : ∀ y ∈ sampleGrid.map (fun t =>
          (dot (polyBasis10 t) est.hbar.coef + est.hbar.intercept - f t) ^ 2), 0 ≤ y := by
        intro y hy
        rcases List.mem_map.1 hy with ⟨t, _, rfl⟩
        positivity
      rw [hl]
      unfold npMean
      constructor
      · intro h0q x hx
        rcases div_eq_zero_iff.1 h0q with hs | hbad
        · have hx2 := (sum_eq_zero_iff_of_nonneg _ hnn).1 hs _ (List.mem_map_of_mem _ hx)
          have hsub := (pow_eq_zero_iff (by norm_num : (2 : ℕ) ≠ 0)).1 hx2
          linarith [hsub]
        · exfalso
          rw [List.length_map] at hbad
          rw [show sampleGrid.length = 200 from by
            unfold sampleGrid; rw [List.length_map, List.length_range]] at hbad
          norm_num at hbad
      · intro hall
        rw [div_eq_zero_iff]
        left
        apply (sum_eq_zero_iff_of_nonneg _ hnn).2
        intro y hy
        rcases List.mem_map.1 hy with ⟨t, ht, rfl⟩
        rw [sub_eq_zero.2 (hall t ht)]
        norm_num
  · have h0 : passState R f 0 = R.seedState 1 := rfl
    have hrun := varLoop_eq R S f est.hbar h11 1000 0 []
    rw [h0] at hrun
    simp only [List.nil_append, Nat.zero_add, zero_add] at hrun
    refine ⟨npMean ((List.range 1000).map (fun i => varAt R S f est.hbar i)), ?_, ?_⟩
    · simp only [varianceBV, hrun]
    · apply npMean_nonneg
      intro y hy
      rcases List.mem_map.1 hy with ⟨i, _, rfl⟩
      unfold varAt
      exact npMean_nonneg _ (fun x hx => mem_zipWith_sq_nonneg _ _ x hx)

/-- C5 counterexample: assign applied to a parameter vector of length 3
(not 11) does not fail at bind time; it succeeds and returns a predictor,
refuting the claim that bind rejects wrong-length vectors when bind is
called. -/
theorem c5_counterexample :
    (([1, 2, 3] : List ℚ).length ≠ 11)
    ∧ assignE [1, 2, 3] = .ok ([0, 2, 3], ⟨[0, 2, 3], 1⟩) :=
  ⟨by decide, rfl⟩

/-- C5 amended: fit always returns a parameter vector of length 11, but
assign performs no length validation at bind time: it fails at bind time
only on an empty vector (index error); on any nonempty vector it succeeds,
and when the vector length differs from 11 the dimension-mismatch failure
surfaces only when the returned predictor is invoked, on every input. -/
theorem c5_amended_dimensionality :
    (∀ (S : Solver) (X y : List ℚ) (c : List ℚ), train S X y = .ok c → c.length = 11)
    ∧ (∀ p : List ℚ, p ≠ [] →
        assignE p = .ok (p.set 0 0, ⟨p.set 0 0, p.getD 0 0⟩)
        ∧ (p.length ≠ 11 → ∀ x : List ℚ,
            applyModel ⟨p.set 0 0, p.getD 0 0⟩ x = .error .dimMismatch))
    ∧ assignE [] = .error .indexError := by
  refine ⟨?_, ?_, rfl⟩
  · intro S X y c hc
    by_cases h0 : X.length = 0
    · simp only [train, if_pos h0] at hc
      cases hc
    · by_cases h : X.length = y.length
      · rw [train_eq_ok S X y h h0] at hc
        simp only [Except.ok.injEq] at hc
        rw [← hc]
        exact trainCoef_len S X y
      · simp only [train, if_neg h0, if_neg h] at hc
        cases hc
  · intro p hp
    refine ⟨assignE_eq p hp, ?_⟩
    intro hlen x
    simp only [applyModel, predictPoly, List.length_set]
    rw [if_neg hlen]

/-- C5 witness: the amended theorem instantiated on closed inputs. -/
theorem c5_amended_witness :
    (([5, 6, 7] : List ℚ) ≠ [])
    ∧ assignE [5, 6, 7] = .ok (([5, 6, 7] : List ℚ).set 0 0,
        ⟨([5, 6, 7] : List ℚ).set 0 0, ([5, 6, 7] : List ℚ).getD 0 0⟩)
    ∧ (trainCoef demoSolver [1, 2] [3, 4]).length = 11 :=
  ⟨by decide,
   (c5_amended_dimensionality.2.1 [5, 6, 7] (by decide)).1,
   c5_amended_dimensionality.1 demoSolver [1, 2] [3, 4] _
     (train_eq_ok demoSolver [1, 2] [3, 4] (by decide) (by decide))⟩

/-- C6 counterexample: with 5 observations (fewer than the 11 basis
dimensions) and matching lengths, train succeeds and silently returns a
coefficient vector instead of failing with an insufficient-data error. -/
theorem c6_counterexample :
    (([0, 0, 0, 0, 0] : List ℚ).length < 11)
    ∧ train demoSolver [0, 0, 0, 0, 0] [1, 1, 1, 1, 1] = .ok (List.replicate 11 0) :=
  ⟨by decide, rfl⟩

/-- C6 amended: fit fails with the at-least-one-sample validation error
when the features array is empty (this check, inside the basis expansion,
fires before the label array is even compared); on a nonempty features
array it fails with a shape error exactly when the features and labels
lengths mismatch; in both failure cases it returns no coefficients.
Whenever at least one observation is given and the lengths agree,
including with fewer observations than the 11 basis dimensions, fit
silently succeeds and returns a length-11 coefficient vector, since the
underlying least-squares solver is total on nonempty rank-deficient
systems: there is no InsufficientDataError. -/
theorem c6_amended_fit_totality (S : Solver) (X y : List ℚ) :
    (X.length = 0 → train S X y = .error .zeroSamples)
    ∧ (X.length ≠ 0 → X.length ≠ y.length → train S X y = .error .invalidInputShape)
    ∧ (X.length ≠ 0 → X.length = y.length →
        train S X y = .ok (trainCoef S X y) ∧ (trainCoef S X y).length = 11) := by
  refine ⟨?_, ?_, ?_⟩
  · intro h0
    simp only [train, if_pos h0]
  · intro h0 h
    simp only [train, if_neg h0, if_neg h]
  · intro h0 h
    exact ⟨train_eq_ok S X y h h0, trainCoef_len S X y⟩

/-- C6 witness: the amended theorem instantiated on closed inputs: an
empty features array (even with a mismatched nonempty label array), a
nonempty mismatched pair, and a matching pair shorter than 11. -/
theorem c6_fit_totality_witness :
    (([] : List ℚ).length = 0)
    ∧ train demoSolver [] [1] = .error .zeroSamples
    ∧ (([1] : List ℚ).length ≠ 0)
    ∧ (([1] : List ℚ).length ≠ ([] : List ℚ).length)
    ∧ train demoSolver [1] [] = .error .invalidInputShape
    ∧ (([2, 3] : List ℚ).length = ([4, 5] : List ℚ).length)
    ∧ train demoSolver [2, 3] [4, 5] = .ok (trainCoef demoSolver [2, 3] [4, 5])
    ∧ (trainCoef demoSolver [2, 3] [4, 5]).length = 11 :=
  ⟨by decide,
   (c6_amended_fit_totality demoSolver [] [1]).1 (by decide),
   by decide,
   by decide,
   (c6_amended_fit_totality demoSolver [1] []).2.1 (by decide) (by decide),
   by decide,
   ((c6_amended_fit_totality demoSolver [2, 3] [4, 5]).2.2 (by decide) (by decide)).1,
   ((c6_amended_fit_totality demoSolver [2, 3] [4, 5]).2.2 (by decide) (by decide)).2⟩

/-- C7: two independent constructions with the same target, solver and
seed policy yield the same estimator value, identical mean-hypothesis
parameter vectors, and identical bias2 and variance outputs, regardless of
the incoming generator states of either construction or of either variance
call: the explicit reseeding to seed 1 makes every pass independent of
prior generator history. -/
theorem c7_two_run_determinism {σ : Type} (R : RandLib σ) (S : Solver) (f : ℚ → ℚ)
    (g1 g2 t1 t2 : σ) :
    (mkBV R S f g1).1 = (mkBV R S f g2).1
    ∧ Except.map BVEstimator.hbar (mkBV R S f g1).1
        = Except.map BVEstimator.hbar (mkBV R S f g2).1
    ∧ Except.bind (mkBV R S f g1).1 (bias2 f) = Except.bind (mkBV R S f g2).1 (bias2 f)
    ∧ Except.bind (mkBV R S f g1).1 (fun e => (varianceBV R S f e t1).1)
        = Except.bind (mkBV R S f g2).1 (fun e => (varianceBV R S f e t2).1) :=
  ⟨rfl, rfl, rfl, rfl⟩

/-- C8: trial for trial, the dataset generated at trial i of the
mean-hypothesis loop equals the dataset generated at trial i of the
variance loop (both loops read the same seeded generator state sequence),
and both equal the declarative seeded dataset sequence. -/
theorem c8_dataset_identity {σ : Type} (R : RandLib σ) (S : Solver) (f : ℚ → ℚ)
    (hbar : BoundModel) (h11 : hbar.coef.length = 11) (i : Nat) :
    (genDataset R f (hbarStateAt R S f i)).1
      = (genDataset R f (varStateAt R S f hbar i)).1
    ∧ (genDataset R f (hbarStateAt R S f i)).1 = datasetAt R f i := by
  rw [hbarStateAt_eq R S f i, varStateAt_eq R S f hbar h11 i]
  exact ⟨rfl, rfl⟩

/-- C8 witness: the dataset identity instantiated at trial 2 on concrete
generator, solver and mean-hypothesis instances. -/
theorem c8_dataset_identity_witness :
    demoEst.hbar.coef.length = 11
    ∧ (genDataset demoRand (fun x => x) (hbarStateAt demoRand demoSolver (fun x => x) 2)).1
        = (genDataset demoRand (fun x => x)
            (varStateAt demoRand demoSolver (fun x => x) demoEst.hbar 2)).1 :=
  ⟨rfl, (c8_dataset_identity demoRand demoSolver (fun x => x) demoEst.hbar rfl 2).1⟩

/-- C9: assign mutates its argument in place: the caller array after the
call is the input with slot 0 overwritten by 0.0 and all other slots
unchanged, and whenever slot 0 held a nonzero value the caller array
really changes, so assign does not operate on a defensive copy. -/
theorem c9_assign_mutates_in_place (p : List ℚ) (hp : p ≠ []) :
    assignE p = .ok (p.set 0 0, ⟨p.set 0 0, p.getD 0 0⟩)
    ∧ (p.set 0 0).getD 0 0 = 0
    ∧ (∀ j, 1 ≤ j → (p.set 0 0).getD j 0 = p.getD j 0)
    ∧ (p.getD 0 0 ≠ 0 → p.set 0 0 ≠ p) := by
  cases p with
  | nil => exact absurd rfl hp
  | cons a l =>
    refine ⟨rfl, rfl, ?_, ?_⟩
    · intro j hj
      cases j with
      | zero => omega
      | succ j' => rfl
    · intro ha heq
      rw [List.set_cons_zero] at heq
      injection heq with h1
      exact ha h1.symm

/-- C9 witness: the mutation theorem instantiated on a concrete two-slot
array. -/
theorem c9_assign_mutates_witness :
    (([5, 7] : List ℚ) ≠ [])
    ∧ assignE [5, 7] = .ok (([5, 7] : List ℚ).set 0 0,
        ⟨([5, 7] : List ℚ).set 0 0, ([5, 7] : List ℚ).getD 0 0⟩) :=
  ⟨by decide, (c9_assign_mutates_in_place [5, 7] (by decide)).1⟩

/-- C10: every predictor bound by assign to a parameter vector of the
family width 11 is total on input arrays of every length and returns an
output array of exactly the input length: the input is reshaped to a
column, expanded to the degree-10 basis, and the linear model is applied
pointwise. -/
theorem c10_predictor_length_preserving (p : List ℚ) (h11 : p.length = 11) :
    assignE p = .ok (p.set 0 0, ⟨p.set 0 0, p.getD 0 0⟩)
    ∧ ∀ x : List ℚ, applyModel ⟨p.set 0 0, p.getD 0 0⟩ x
        = .ok (predVals (p.set 0 0) (p.getD 0 0) x)
      ∧ (predVals (p.set 0 0) (p.getD 0 0) x).length = x.length := by
  have hne : p ≠ [] := by
    intro h
    rw [h] at h11
    simp at h11
  refine ⟨assignE_eq p hne, ?_⟩
  intro x
  constructor
  · simp only [applyModel, predictPoly, List.length_set, h11, reduceIte]
  · unfold predVals
    rw [List.length_map]

/-- C10 witness: the length-preservation theorem instantiated on a
concrete width-11 vector and a two-point input grid. -/
theorem c10_predictor_length_witness :
    (List.replicate 11 (1 : ℚ)).length = 11
    ∧ (predVals ((List.replicate 11 (1 : ℚ)).set 0 0)
        ((List.replicate 11 (1 : ℚ)).getD 0 0) [0, 1]).length
      = ([0, 1] : List ℚ).length :=
  ⟨by decide,
   ((c10_predictor_length_preserving (List.replicate 11 1) (by decide)).2 [0, 1]).2⟩

/-- C2 witness: the bias2 formula instantiated on the concrete estimator
state with identity target. -/
theorem c2_bias2_witness :
    demoEst.hbar.coef.length = 11 ∧ demoEst.sampleX = sampleGrid
    ∧ sampleGrid.length = 200 :=
  ⟨rfl, rfl, (c2_bias2_formula (fun x => x) demoEst rfl rfl).2.1⟩

/-- C3 witness: the variance formula instantiated on concrete generator,
solver and estimator instances. -/
theorem c3_variance_witness :
    demoEst.hbar.coef.length = 11
    ∧ (∀ i, ((datasetAt demoRand (fun x => x) i).1).length = 200) :=
  ⟨rfl, (c3_variance_formula demoRand demoSolver (fun x => x) demoEst 0 rfl).2.2.2⟩

/-- C4 witness: the non-negativity theorem instantiated on concrete
generator, solver and estimator instances. -/
theorem c4_nonnegativity_witness :
    demoEst.hbar.coef.length = 11 ∧ demoEst.sampleX = sampleGrid
    ∧ (∃ v, (varianceBV demoRand demoSolver (fun x => x) demoEst 0).1 = .ok v ∧ 0 ≤ v) :=
  ⟨rfl, rfl, (c4_nonnegativity demoRand demoSolver (fun x => x) demoEst 0 rfl rfl).2⟩
